import Mathlib

/-!
Verification of the `cloudwatch` CLI core (src/main.rs): a query-fingerprint
cache with a resumable, streaming, paginated fetch.

The embedding below translates the relevant parts of `main` into pure Lean
definitions:

* `Query` holds the raw CLI argument values consumed by `main` (the fields
  hashed into the cache key).
* `fingerprintInput` is the exact byte/character sequence fed to the SHA-1
  hasher (lines 96-106 of main.rs): one version byte `2` followed by the six
  field strings, each absent optional field replaced by a fixed per-field
  sentinel literal.  The on-disk cache key is the SHA-1 hex digest of this
  string; since the digest is a function of it, all claims about key
  equality/collision are settled at the level of `fingerprintInput`, and the
  cache store below is keyed by it directly.
* `fetchLoop` is the paging `while` loop (lines 150-196), with the external
  `aws logs filter-log-events` process abstracted as a function
  `Remote : Nat -> Option String -> RemoteResult` from (limit, next-token) to
  either a failing exit (with its stderr bytes) or a parsed `LogEvents`
  response (serialized event strings plus an optional nextToken).  The loop
  is fuel-indexed to make it total; `FetchOutcome.outOfFuel` is a model
  artifact that no theorem below treats as program behaviour.  Every
  observable side effect is logged, in program order, as an `Effect`.
* `runMain` is the rest of `main` after argument parsing: cache-hit check,
  temp-file creation, the loop, and the final atomic rename.  The cache
  directory is a finite map from key to committed file contents; the
  `.partial` temp file is tracked separately in `tempFileAfter`.  Rendering
  (`--text` / `print_event`) and human date parsing are out-of-scope external
  collaborators; emission is modelled as the serialized record string.
-/

/-- The query parameters hashed into the cache key, exactly the raw CLI
strings that `main` reads from `matches` (main.rs lines 87-92).  Note the
fingerprint hashes the raw `start-time`/`end-time`/`max-items` strings, not
their parsed forms. -/
structure Query where
  logGroupName : String
  logStreamName : Option String
  filterPattern : Option String
  startTime : Option String
  endTime : Option String
  maxItems : Option String
  deriving DecidableEq

/-- The version byte fed to the hasher first: `hasher.input(&[2])`. -/
def versionTag : String := String.mk [Char.ofNat 2]

/-- Serialized log-group field (required, no sentinel). -/
def sGroup (q : Query) : String := q.logGroupName

/-- Serialized log-stream field: `log_stream_name.unwrap_or("log-stream-name")`. -/
def sStream (q : Query) : String := q.logStreamName.getD "log-stream-name"

/-- Serialized filter field: `filter_pattern.unwrap_or("filter-pattern")`. -/
def sFilter (q : Query) : String := q.filterPattern.getD "filter-pattern"

/-- Serialized start-time field: `start_time.unwrap_or("start-time")`. -/
def sStart (q : Query) : String := q.startTime.getD "start-time"

/-- Serialized end-time field: `end_time.unwrap_or("end-time")`. -/
def sEnd (q : Query) : String := q.endTime.getD "end-time"

/-- Serialized max-items field: `max_items.unwrap_or("max-items")`. -/
def sMax (q : Query) : String := q.maxItems.getD "max-items"

/-- The exact pre-hash serialization fed to SHA-1 (main.rs lines 96-106):
version byte, then the six field strings concatenated with no separators,
absent fields replaced by their sentinel literals.  The cache key is the
SHA-1 hex digest of this string. -/
def fingerprintInput (q : Query) : String :=
  versionTag
  ++ q.logGroupName
  ++ q.logStreamName.getD "log-stream-name"
  ++ q.filterPattern.getD "filter-pattern"
  ++ q.startTime.getD "start-time"
  ++ q.endTime.getD "end-time"
  ++ q.maxItems.getD "max-items"

theorem fingerprintInput_eq (q : Query) :
    fingerprintInput q =
      versionTag ++ sGroup q ++ sStream q ++ sFilter q ++ sStart q ++ sEnd q ++ sMax q := rfl

/-- Q1 and Q2 differ in exactly one of the six hashed positions, in the sense
that the per-field serializations (present value, or the field's sentinel
when absent) agree at five positions and differ at the remaining one. -/
def oneFieldDiff (q1 q2 : Query) : Prop :=
  (sGroup q1 ≠ sGroup q2 ∧ sStream q1 = sStream q2 ∧ sFilter q1 = sFilter q2 ∧
    sStart q1 = sStart q2 ∧ sEnd q1 = sEnd q2 ∧ sMax q1 = sMax q2) ∨
  (sGroup q1 = sGroup q2 ∧ sStream q1 ≠ sStream q2 ∧ sFilter q1 = sFilter q2 ∧
    sStart q1 = sStart q2 ∧ sEnd q1 = sEnd q2 ∧ sMax q1 = sMax q2) ∨
  (sGroup q1 = sGroup q2 ∧ sStream q1 = sStream q2 ∧ sFilter q1 ≠ sFilter q2 ∧
    sStart q1 = sStart q2 ∧ sEnd q1 = sEnd q2 ∧ sMax q1 = sMax q2) ∨
  (sGroup q1 = sGroup q2 ∧ sStream q1 = sStream q2 ∧ sFilter q1 = sFilter q2 ∧
    sStart q1 ≠ sStart q2 ∧ sEnd q1 = sEnd q2 ∧ sMax q1 = sMax q2) ∨
  (sGroup q1 = sGroup q2 ∧ sStream q1 = sStream q2 ∧ sFilter q1 = sFilter q2 ∧
    sStart q1 = sStart q2 ∧ sEnd q1 ≠ sEnd q2 ∧ sMax q1 = sMax q2) ∨
  (sGroup q1 = sGroup q2 ∧ sStream q1 = sStream q2 ∧ sFilter q1 = sFilter q2 ∧
    sStart q1 = sStart q2 ∧ sEnd q1 = sEnd q2 ∧ sMax q1 ≠ sMax q2)

theorem string_mid_cancel (p x y s : String) (h : p ++ x ++ s = p ++ y ++ s) : x = y := by
  have hd := congrArg String.data h
  simp only [String.data_append] at hd
  exact String.ext (List.append_cancel_left (List.append_cancel_right hd))

/-- A Query whose log-stream value is literally the log-stream sentinel. -/
def qSentinelStream : Query :=
  { logGroupName := "group", logStreamName := some "log-stream-name",
    filterPattern := none, startTime := none, endTime := none, maxItems := some "5" }

/-- The same Query with the log-stream field absent. -/
def qAbsentStream : Query :=
  { logGroupName := "group", logStreamName := none,
    filterPattern := none, startTime := none, endTime := none, maxItems := some "5" }

/-- C3 counterexample: the pre-hash serialization is NOT injective over
distinct Queries.  A present log-stream equal to the sentinel literal
"log-stream-name" collides with an absent log-stream: the two Queries are
distinct yet their serializations (hence their SHA-1 fingerprints) are
equal. -/
theorem c3_counterexample :
    qSentinelStream ≠ qAbsentStream ∧
      fingerprintInput qSentinelStream = fingerprintInput qAbsentStream := by
  decide

/-- C3 (amended): among Queries differing in exactly one hashed position —
the per-field serializations (value, or that field's sentinel when absent)
agree at five of the six field positions and differ at the sixth — the
pre-hash serialization, and hence the fingerprint input, is injective. -/
theorem c3_oneFieldDiff_fingerprint_ne (q1 q2 : Query) (h : oneFieldDiff q1 q2) :
    fingerprintInput q1 ≠ fingerprintInput q2 := by
  intro heq
  rw [fingerprintInput_eq q1, fingerprintInput_eq q2] at heq
  rcases h with ⟨h1, h2, h3, h4, h5, h6⟩ | ⟨h1, h2, h3, h4, h5, h6⟩ |
    ⟨h1, h2, h3, h4, h5, h6⟩ | ⟨h1, h2, h3, h4, h5, h6⟩ |
    ⟨h1, h2, h3, h4, h5, h6⟩ | ⟨h1, h2, h3, h4, h5, h6⟩
  · rw [h2, h3, h4, h5, h6] at heq
    exact h1 (string_mid_cancel versionTag (sGroup q1) (sGroup q2)
      (sStream q2 ++ sFilter q2 ++ sStart q2 ++ sEnd q2 ++ sMax q2)
      (by simpa [String.append_assoc] using heq))
  · rw [h1, h3, h4, h5, h6] at heq
    exact h2 (string_mid_cancel (versionTag ++ sGroup q2) (sStream q1) (sStream q2)
      (sFilter q2 ++ sStart q2 ++ sEnd q2 ++ sMax q2)
      (by simpa [String.append_assoc] using heq))
  · rw [h1, h2, h4, h5, h6] at heq
    exact h3 (string_mid_cancel (versionTag ++ sGroup q2 ++ sStream q2)
      (sFilter q1) (sFilter q2) (sStart q2 ++ sEnd q2 ++ sMax q2)
      (by simpa [String.append_assoc] using heq))
  · rw [h1, h2, h3, h5, h6] at heq
    exact h4 (string_mid_cancel (versionTag ++ sGroup q2 ++ sStream q2 ++ sFilter q2)
      (sStart q1) (sStart q2) (sEnd q2 ++ sMax q2)
      (by simpa [String.append_assoc] using heq))
  · rw [h1, h2, h3, h4, h6] at heq
    exact h5 (string_mid_cancel
      (versionTag ++ sGroup q2 ++ sStream q2 ++ sFilter q2 ++ sStart q2)
      (sEnd q1) (sEnd q2) (sMax q2)
      (by simpa [String.append_assoc] using heq))
  · rw [h1, h2, h3, h4, h5] at heq
    exact h6 (string_mid_cancel
      (versionTag ++ sGroup q2 ++ sStream q2 ++ sFilter q2 ++ sStart q2 ++ sEnd q2)
      (sMax q1) (sMax q2) ""
      (by simpa [String.append_assoc] using heq))

/-- Concrete query for the C3 witness (group "groupA"). -/
def qGroupA : Query :=
  { logGroupName := "groupA", logStreamName := none,
    filterPattern := none, startTime := none, endTime := none, maxItems := none }

/-- Concrete query for the C3 witness (group "groupB", all else equal). -/
def qGroupB : Query :=
  { logGroupName := "groupB", logStreamName := none,
    filterPattern := none, startTime := none, endTime := none, maxItems := none }

/-- Witness for the amended C3 at a concrete single-field difference. -/
theorem c3_witness : fingerprintInput qGroupA ≠ fingerprintInput qGroupB :=
  c3_oneFieldDiff_fingerprint_ne qGroupA qGroupB (Or.inl (by decide))

/-- C4: the fingerprint is deterministic — it is a pure function of the six
field values (with the fixed version marker), so two evaluations on the same
field values produce the same pre-hash serialization, and hence (SHA-1 being
a function) the same token, independent of process, time, or environment. -/
theorem c4_fingerprint_deterministic (q1 q2 : Query)
    (h1 : q1.logGroupName = q2.logGroupName)
    (h2 : q1.logStreamName = q2.logStreamName)
    (h3 : q1.filterPattern = q2.filterPattern)
    (h4 : q1.startTime = q2.startTime)
    (h5 : q1.endTime = q2.endTime)
    (h6 : q1.maxItems = q2.maxItems) :
    fingerprintInput q1 = fingerprintInput q2 := by
  cases q1
  cases q2
  simp only at h1 h2 h3 h4 h5 h6
  subst h1 h2 h3 h4 h5 h6
  rfl

/-- A concrete query for the C4 witness. -/
def qDet : Query :=
  { logGroupName := "g", logStreamName := some "s",
    filterPattern := none, startTime := some "1d", endTime := none, maxItems := some "5" }

/-- Witness for C4 at concrete equal field values. -/
theorem c4_witness : fingerprintInput qDet = fingerprintInput qDet :=
  c4_fingerprint_deterministic qDet qDet rfl rfl rfl rfl rfl rfl

/-- The result of one invocation of the external `aws logs filter-log-events`
process (main.rs lines 151-173): either the command exits unsuccessfully
(carrying its stderr bytes), or its stdout parses as a `LogEvents` response —
a list of serialized event JSON strings (`event.to_string()`) plus the
optional `nextToken`. -/
inductive RemoteResult where
  | failure (stderr : String)
  | success (events : List String) (nextToken : Option String)
  deriving DecidableEq

/-- The Remote Log Source, abstracted as a function from the `--limit` value
and the `--next-token` value (absent on the first call) to the command's
result.  The fixed query arguments (`--log-group-name`, times, filter) are
baked into the function. -/
def Remote : Type := Nat → Option String → RemoteResult

/-- One observable side effect of the fetch path, logged in program order:
a page request to the remote (with the loop's `remaining` at call time as
ghost state), a byte-string appended to the `.partial` temp file, a record
emitted to the live output sink, or bytes written to stderr. -/
inductive Effect where
  | request (remainingAtCall : Option Nat) (limit : Nat) (token : Option String)
  | writeCache (s : String)
  | emit (s : String)
  | writeStderr (s : String)
  deriving DecidableEq

/-- How the fetch loop ended: fell out of the loop (so `fs::rename` commits
the Cache Entry), returned early on a failed remote command (no rename), or
exhausted the model's fuel (a model artifact only). -/
inductive FetchOutcome where
  | committed
  | remoteError (stderr : String)
  | outOfFuel
  deriving DecidableEq

/-- The loop guard `remaining.is_none() || remaining.unwrap() > 0`
(main.rs line 150). -/
def optActive : Option Nat → Bool
  | none => true
  | some n => decide (0 < n)

/-- The page size passed to the remote:
`remaining.unwrap_or(1000).min(1000)` (main.rs line 161). -/
def limitOf (r : Option Nat) : Nat := min (r.getD 1000) 1000

/-- The actions of the per-page record loop (main.rs lines 175-186): for each
event in page order, its JSON is appended to the temp file, then a newline,
then the record is emitted to the output sink. -/
def recordBlock (events : List String) : List Effect :=
  events.flatMap (fun e => [Effect.writeCache e, Effect.writeCache "\n", Effect.emit e])

/-- The paging `while` loop of `main` (main.rs lines 150-196), fuel-indexed.
Per iteration: check the guard; request a page with
`limit = remaining.unwrap_or(1000).min(1000)` and the last-seen token; on a
failed command write its stderr and return early (no commit); otherwise
record the new token, process the page's events, decrement `remaining` by the
page length (if bounded), and stop with a commit when the new token is
absent, else loop. -/
def fetchLoop (remote : Remote) : Nat → Option Nat → Option String → List Effect × FetchOutcome
  | 0, _, _ => ([], FetchOutcome.outOfFuel)
  | Nat.succ fuel, remaining, tok =>
    if optActive remaining then
      let limit := limitOf remaining
      match remote limit tok with
      | RemoteResult.failure err =>
          ([Effect.request remaining limit tok, Effect.writeStderr err],
            FetchOutcome.remoteError err)
      | RemoteResult.success events nextTok =>
          let remaining2 := remaining.map (fun n => n - events.length)
          if nextTok.isNone then
            (Effect.request remaining limit tok :: recordBlock events, FetchOutcome.committed)
          else
            let rest := fetchLoop remote fuel remaining2 nextTok
            (Effect.request remaining limit tok :: (recordBlock events ++ rest.1), rest.2)
    else ([], FetchOutcome.committed)

/-- Numeric value of an ASCII digit character, if it is one. -/
def digitVal (c : Char) : Option Nat :=
  if 48 ≤ c.toNat ∧ c.toNat ≤ 57 then some (c.toNat - 48) else none

/-- Left-to-right decimal accumulation over a character list; fails on any
non-digit character. -/
def parseDigits : Nat → List Char → Option Nat
  | acc, [] => some acc
  | acc, c :: cs =>
    match digitVal c with
    | some d => parseDigits (acc * 10 + d) cs
    | none => none

/-- Rust's `str::parse::<u32>`: a non-empty all-digit string whose value
fits in 32 bits; anything else fails. -/
def parseU32 (s : String) : Option Nat :=
  match s.data with
  | [] => none
  | cs =>
    match parseDigits 0 cs with
    | some n => if n < 4294967296 then some n else none
    | none => none

/-- `max_items.map(|x| x.parse::<u32>().unwrap())` (main.rs line 147):
`none` when the parse panics (non-numeric or out of u32 range), otherwise
the parsed optional bound. -/
def parseMaxItems : Option String → Option (Option Nat)
  | none => some none
  | some s => (parseU32 s).map some

/-- What one invocation of `main` did after argument parsing. -/
inductive MainRun where
  | cacheHit (contents : String)
  | fetchRun (trace : List Effect) (outcome : FetchOutcome)
  | panicked
  deriving DecidableEq

/-- The observable result of one invocation: what ran, the process exit
status, the committed cache entries afterwards (a map from fingerprint key to
file contents), and the `.partial` temp file left behind, if any. -/
structure MainOutput where
  run : MainRun
  exitCode : Nat
  entriesAfter : List (String × String)
  tempFileAfter : Option String
  deriving DecidableEq

/-- Concatenated bytes appended to the temp cache file by a trace. -/
def cacheContent : List Effect → String
  | [] => ""
  | Effect.writeCache s :: rest => s ++ cacheContent rest
  | _ :: rest => cacheContent rest

/-- The records emitted to the live output sink by a trace, in order. -/
def emits : List Effect → List String
  | [] => []
  | Effect.emit s :: rest => s :: emits rest
  | _ :: rest => emits rest

/-- The page requests made by a trace, in order:
(remaining at call, limit, token). -/
def requests : List Effect → List (Option Nat × Nat × Option String)
  | [] => []
  | Effect.request r l t :: rest => (r, l, t) :: requests rest
  | _ :: rest => requests rest

/-- Concatenated bytes written to stderr by a trace. -/
def stderrOut : List Effect → String
  | [] => ""
  | Effect.writeStderr s :: rest => s ++ stderrOut rest
  | _ :: rest => stderrOut rest

/-- `main` after argument parsing (main.rs lines 96-198): compute the
fingerprint; if `force` is unset and a committed entry exists for it, read
and output that entry and return (no temp file, no remote call); otherwise
parse `max_items` (panicking on a bad value), create the empty `.partial`
temp file, run the fetch loop, and — only when the loop fell through
normally — atomically rename the temp file onto the final cache path.
An early return on remote failure leaves the temp file uncommitted and the
entry map untouched; in both cases `main` returns normally, so the process
exit status is 0. -/
def runMain (remote : Remote) (fuel : Nat) (entries : List (String × String))
    (q : Query) (force : Bool) : MainOutput :=
  let key := fingerprintInput q
  if !force && (List.lookup key entries).isSome then
    { run := MainRun.cacheHit ((List.lookup key entries).getD ""), exitCode := 0,
      entriesAfter := entries, tempFileAfter := none }
  else
    match parseMaxItems q.maxItems with
    | none =>
      { run := MainRun.panicked, exitCode := 101,
        entriesAfter := entries, tempFileAfter := some "" }
    | some remaining0 =>
      let res := fetchLoop remote fuel remaining0 none
      match res.2 with
      | FetchOutcome.committed =>
        { run := MainRun.fetchRun res.1 FetchOutcome.committed, exitCode := 0,
          entriesAfter := (key, cacheContent res.1) :: entries, tempFileAfter := none }
      | FetchOutcome.remoteError err =>
        { run := MainRun.fetchRun res.1 (FetchOutcome.remoteError err), exitCode := 0,
          entriesAfter := entries, tempFileAfter := some (cacheContent res.1) }
      | FetchOutcome.outOfFuel =>
        { run := MainRun.fetchRun res.1 FetchOutcome.outOfFuel, exitCode := 0,
          entriesAfter := entries, tempFileAfter := some (cacheContent res.1) }

/-- The trace of remote-path actions of an invocation (empty on a cache hit,
where `main` returns before any remote call or file write). -/
def traceOf (o : MainOutput) : List Effect :=
  match o.run with
  | MainRun.fetchRun tr _ => tr
  | _ => []

/-- Did the invocation end in the early-return remote-failure path? -/
def isRemoteError (o : MainOutput) : Bool :=
  match o.run with
  | MainRun.fetchRun _ (FetchOutcome.remoteError _) => true
  | _ => false

/-- Did the invocation run the fetch loop to completion and commit? -/
def isCommitted (o : MainOutput) : Bool :=
  match o.run with
  | MainRun.fetchRun _ FetchOutcome.committed => true
  | _ => false

/-- Twelve serialized records "r0" .. "r11" forming a remote stream. -/
def rec12 : List String := (List.range 12).map (fun i => "r" ++ toString i)

/-- A well-behaved Remote Log Source over the 12-record stream: the
continuation token encodes the next index; each page returns at most the
requested limit and supplies a token exactly when records remain. -/
def remote12 : Remote := fun limit tok =>
  let start := (tok.bind parseU32).getD 0
  let k := min limit (12 - start)
  RemoteResult.success ((rec12.drop start).take k)
    (if start + k < 12 then some (toString (start + k)) else none)

/-- A Remote Log Source whose stream is empty: zero records, no token. -/
def remoteEmpty : Remote := fun _ _ => RemoteResult.success [] none

/-- A Remote Log Source whose command always exits unsuccessfully. -/
def failRemote : Remote := fun _ _ => RemoteResult.failure "AccessDenied"

/-- A Remote Log Source returning two records and a token on every call
(every page is shorter than any limit above 2). -/
def remoteShort : Remote := fun _ _ =>
  RemoteResult.success ["a", "b"] (some "t")

/-- Query with `--max-items 5` used for C5. -/
def q5 : Query :=
  { logGroupName := "group", logStreamName := none, filterPattern := none,
    startTime := none, endTime := none, maxItems := some "5" }

/-- Query with a start time and no item bound, used for C8. -/
def q8 : Query :=
  { logGroupName := "group", logStreamName := none, filterPattern := none,
    startTime := some "yesterday", endTime := none, maxItems := none }

/-- Query with `--max-items 0` used for C10. -/
def q10 : Query :=
  { logGroupName := "group", logStreamName := none, filterPattern := none,
    startTime := none, endTime := none, maxItems := some "0" }

/-- Query with `--max-items 3` used for the C1/C2 failure scenarios. -/
def qC1 : Query :=
  { logGroupName := "group", logStreamName := none, filterPattern := none,
    startTime := none, endTime := none, maxItems := some "3" }

/-- The file contents of the committed 5-record Cache Entry of C5. -/
def cache5 : String := "r0\nr1\nr2\nr3\nr4\n"

/-- C5: with `max_items = 5` against the 12-record stream, the driver makes
exactly one page request, stops because `remaining` reached zero (the remote
still offered a token), and commits a Cache Entry holding exactly the first
5 records; a second identical invocation with `force` unset is a cache hit
returning those same 5 records with no remote request and no fetch trace. -/
theorem c5_max_items_commit_then_hit :
    isCommitted (runMain remote12 20 [] q5 false) = true ∧
    requests (traceOf (runMain remote12 20 [] q5 false)) = [(some 5, 5, none)] ∧
    emits (traceOf (runMain remote12 20 [] q5 false)) = rec12.take 5 ∧
    List.lookup (fingerprintInput q5) (runMain remote12 20 [] q5 false).entriesAfter
      = some cache5 ∧
    (runMain remote12 20 (runMain remote12 20 [] q5 false).entriesAfter q5 false).run
      = MainRun.cacheHit cache5 ∧
    traceOf (runMain remote12 20 (runMain remote12 20 [] q5 false).entriesAfter q5 false)
      = [] := by
  decide

/-- C8: an empty remote stream (zero records, no continuation token on the
first page) commits an empty Cache Entry after a single page request, and a
later identical invocation is a cache hit returning zero records (empty
contents) with no remote request. -/
theorem c8_empty_stream_commits_empty_entry :
    isCommitted (runMain remoteEmpty 20 [] q8 false) = true ∧
    requests (traceOf (runMain remoteEmpty 20 [] q8 false)) = [(none, 1000, none)] ∧
    emits (traceOf (runMain remoteEmpty 20 [] q8 false)) = [] ∧
    List.lookup (fingerprintInput q8) (runMain remoteEmpty 20 [] q8 false).entriesAfter
      = some "" ∧
    (runMain remoteEmpty 20 (runMain remoteEmpty 20 [] q8 false).entriesAfter q8 false).run
      = MainRun.cacheHit "" ∧
    traceOf (runMain remoteEmpty 20 (runMain remoteEmpty 20 [] q8 false).entriesAfter q8 false)
      = [] := by
  decide

/-- C10: with `max_items = 0` and no pre-existing entry, the loop guard is
false immediately — the fetch trace is empty, so zero remote requests are
made, nothing is emitted, and nothing is appended to the temp file — yet the
rename after the loop still runs, committing an empty Cache Entry for the
fingerprint. -/
theorem c10_zero_max_items_commits_empty :
    (runMain remote12 20 [] q10 false).run = MainRun.fetchRun [] FetchOutcome.committed ∧
    requests (traceOf (runMain remote12 20 [] q10 false)) = [] ∧
    emits (traceOf (runMain remote12 20 [] q10 false)) = [] ∧
    List.lookup (fingerprintInput q10) (runMain remote12 20 [] q10 false).entriesAfter
      = some "" ∧
    (runMain remote12 20 [] q10 false).tempFileAfter = none := by
  decide

/-- C1 counterexample: when the remote command fails, `main` writes the
command's stderr to the error stream and writes no Cache Entry, but it then
`return`s normally, so the process exits with status 0 — NOT with a non-zero
status as claimed. -/
theorem c1_counterexample :
    stderrOut (traceOf (runMain failRemote 20 [] qC1 false)) = "AccessDenied" ∧
    (runMain failRemote 20 [] qC1 false).entriesAfter = [] ∧
    (runMain failRemote 20 [] qC1 false).exitCode = 0 := by
  decide

theorem stderrOut_append (a b : List Effect) :
    stderrOut (a ++ b) = stderrOut a ++ stderrOut b := by
  induction a with
  | nil => simp [stderrOut]
  | cons x xs ih => cases x <;> simp [stderrOut, ih, String.append_assoc]

theorem stderrOut_recordBlock (events : List String) :
    stderrOut (recordBlock events) = "" := by
  induction events with
  | nil => rfl
  | cons e es ih =>
    simp only [recordBlock, List.flatMap_cons] at ih ⊢
    rw [stderrOut_append]
    simpa [stderrOut] using ih

theorem fetchLoop_remoteError (remote : Remote) :
    ∀ (fuel : Nat) (r : Option Nat) (t : Option String) (e : String),
      (fetchLoop remote fuel r t).2 = FetchOutcome.remoteError e →
      (∃ l t2, remote l t2 = RemoteResult.failure e) ∧
        stderrOut (fetchLoop remote fuel r t).1 = e := by
  intro fuel
  induction fuel with
  | zero => intro r t e h; simp [fetchLoop] at h
  | succ f ih =>
    intro r t e h
    rw [fetchLoop] at h ⊢
    by_cases ha : optActive r
    · simp only [ha, if_true] at h ⊢
      cases hr : remote (limitOf r) t with
      | failure err =>
        rw [hr] at h
        dsimp only at h
        injection h with h2
        subst h2
        exact ⟨⟨limitOf r, t, hr⟩, by simp [stderrOut]⟩
      | success events nextTok =>
        rw [hr] at h
        dsimp only at h ⊢
        by_cases hn : nextTok.isNone
        · rw [if_pos hn] at h
          exact absurd h (by simp)
        · rw [if_neg hn] at h ⊢
          have h2 := ih (r.map (fun n => n - events.length)) nextTok e h
          refine ⟨h2.1, ?_⟩
          simp only [stderrOut, List.cons_append]
          rw [stderrOut_append, stderrOut_recordBlock, h2.2]
          simp
    · simp only [ha, if_false] at h
      exact absurd h (by simp)

theorem runMain_remoteError_shape (remote : Remote) (fuel : Nat)
    (entries : List (String × String)) (q : Query) (force : Bool)
    (h : isRemoteError (runMain remote fuel entries q force) = true) :
    ∃ r0 e, parseMaxItems q.maxItems = some r0 ∧
      (fetchLoop remote fuel r0 none).2 = FetchOutcome.remoteError e ∧
      runMain remote fuel entries q force =
        { run := MainRun.fetchRun (fetchLoop remote fuel r0 none).1
            (FetchOutcome.remoteError e),
          exitCode := 0, entriesAfter := entries,
          tempFileAfter := some (cacheContent (fetchLoop remote fuel r0 none).1) } := by
  unfold runMain at h ⊢
  dsimp only at h ⊢
  by_cases hc : (!force && (List.lookup (fingerprintInput q) entries).isSome) = true
  · rw [if_pos hc] at h
    simp [isRemoteError] at h
  · rw [if_neg hc] at h ⊢
    cases hp : parseMaxItems q.maxItems with
    | none =>
      rw [hp] at h
      simp [isRemoteError] at h
    | some r0 =>
      rw [hp] at h
      dsimp only at h ⊢
      cases ho : (fetchLoop remote fuel r0 none).2 with
      | committed =>
        rw [ho] at h
        simp [isRemoteError] at h
      | remoteError e =>
        rw [ho] at h
        exact ⟨r0, e, rfl, ho, rfl⟩
      | outOfFuel =>
        rw [ho] at h
        simp [isRemoteError] at h

/-- C1 (amended): for every invocation in which the remote command exits
unsuccessfully, the failing command's stderr (the error detail) is written to
the error stream and no Cache Entry is written (the entry map is unchanged) —
but `main` returns normally, so the process exits with status 0, not a
non-zero status. -/
theorem c1_remote_failure_stderr_exit0 (remote : Remote) (fuel : Nat)
    (entries : List (String × String)) (q : Query) (force : Bool)
    (h : isRemoteError (runMain remote fuel entries q force) = true) :
    (runMain remote fuel entries q force).exitCode = 0 ∧
    (runMain remote fuel entries q force).entriesAfter = entries ∧
    ∃ l t2 e, remote l t2 = RemoteResult.failure e ∧
      stderrOut (traceOf (runMain remote fuel entries q force)) = e := by
  obtain ⟨r0, e, hp, ho, heq⟩ := runMain_remoteError_shape remote fuel entries q force h
  rw [heq]
  refine ⟨rfl, rfl, ?_⟩
  obtain ⟨⟨l, t2, hf⟩, hs⟩ := fetchLoop_remoteError remote fuel r0 none e ho
  exact ⟨l, t2, e, hf, by simpa [traceOf] using hs⟩

/-- Witness for the amended C1 at the concrete always-failing remote. -/
theorem c1_witness :
    (runMain failRemote 20 [] qC1 false).exitCode = 0 ∧
    (runMain failRemote 20 [] qC1 false).entriesAfter = [] ∧
    ∃ l t2 e, failRemote l t2 = RemoteResult.failure e ∧
      stderrOut (traceOf (runMain failRemote 20 [] qC1 false)) = e :=
  c1_remote_failure_stderr_exit0 failRemote 20 [] qC1 false (by decide)

/-- C2: a fetch that aborts with a remote error commits nothing: the entry
map is unchanged (the rename never runs), the Partial Entry is left behind
uncommitted, and if no committed entry existed for the query's fingerprint
before the call, none exists afterwards, so the exists check is unchanged. -/
theorem c2_remote_error_no_commit (remote : Remote) (fuel : Nat)
    (entries : List (String × String)) (q : Query) (force : Bool)
    (h : isRemoteError (runMain remote fuel entries q force) = true) :
    (runMain remote fuel entries q force).entriesAfter = entries ∧
    (runMain remote fuel entries q force).tempFileAfter.isSome = true ∧
    (List.lookup (fingerprintInput q) entries = none →
      List.lookup (fingerprintInput q) (runMain remote fuel entries q force).entriesAfter
        = none) := by
  obtain ⟨r0, e, hp, ho, heq⟩ := runMain_remoteError_shape remote fuel entries q force h
  rw [heq]
  exact ⟨rfl, rfl, fun hn => hn⟩

/-- Witness for C2 at the concrete always-failing remote. -/
theorem c2_witness :
    (runMain failRemote 20 [] qC1 false).entriesAfter = [] ∧
    (runMain failRemote 20 [] qC1 false).tempFileAfter.isSome = true ∧
    (List.lookup (fingerprintInput qC1) ([] : List (String × String)) = none →
      List.lookup (fingerprintInput qC1) (runMain failRemote 20 [] qC1 false).entriesAfter
        = none) :=
  c2_remote_error_no_commit failRemote 20 [] qC1 false (by decide)

theorem requests_append (a b : List Effect) :
    requests (a ++ b) = requests a ++ requests b := by
  induction a with
  | nil => rfl
  | cons x xs ih => cases x <;> simp [requests, ih]

theorem requests_recordBlock (events : List String) :
    requests (recordBlock events) = [] := by
  induction events with
  | nil => rfl
  | cons e es ih =>
    simp only [recordBlock, List.flatMap_cons] at ih ⊢
    rw [requests_append]
    simpa [requests] using ih

/-- The token field of the first page request of a trace is `t` (vacuous for
an empty request list). -/
def firstTokenIs (t : Option String) : List (Option Nat × Nat × Option String) → Prop
  | [] => True
  | c :: _ => c.2.2 = t

/-- Consecutive page requests are chained: the remote's successful response
to each request supplied exactly the continuation token used by the next
request. -/
def tokensChain (remote : Remote) : List (Option Nat × Nat × Option String) → Prop
  | [] => True
  | [_] => True
  | c1 :: c2 :: rest =>
    (∃ evs, remote c1.2.1 c1.2.2 = RemoteResult.success evs c2.2.2) ∧
      tokensChain remote (c2 :: rest)

theorem fetchLoop_requests_ok (remote : Remote) :
    ∀ (fuel : Nat) (r : Option Nat) (t : Option String),
      (∀ c ∈ requests (fetchLoop remote fuel r t).1, c.2.1 = limitOf c.1) ∧
      firstTokenIs t (requests (fetchLoop remote fuel r t).1) ∧
      tokensChain remote (requests (fetchLoop remote fuel r t).1) := by
  intro fuel
  induction fuel with
  | zero => intro r t; exact ⟨by simp [fetchLoop, requests], trivial, trivial⟩
  | succ f ih =>
    intro r t
    rw [fetchLoop]
    by_cases ha : optActive r
    · simp only [ha, if_true]
      cases hr : remote (limitOf r) t with
      | failure err =>
        dsimp only
        refine ⟨?_, rfl, trivial⟩
        intro c hc
        simp [requests] at hc
        subst hc
        rfl
      | success events nextTok =>
        dsimp only
        by_cases hn : nextTok.isNone
        · rw [if_pos hn]
          refine ⟨?_, rfl, ?_⟩
          · intro c hc
            simp only [requests, requests_recordBlock, List.mem_singleton] at hc
            subst hc
            rfl
          · show tokensChain remote ((r, limitOf r, t) :: requests (recordBlock events))
            rw [requests_recordBlock]
            exact trivial
        · rw [if_neg hn]
          obtain ⟨ihl, ihf, ihc⟩ := ih (r.map (fun n => n - events.length)) nextTok
          show (∀ c ∈ requests (Effect.request r (limitOf r) t ::
              (recordBlock events ++
                (fetchLoop remote f (r.map (fun n => n - events.length)) nextTok).1)),
              c.2.1 = limitOf c.1) ∧ _ ∧ _
          simp only [requests, requests_append, requests_recordBlock, List.nil_append]
          refine ⟨?_, rfl, ?_⟩
          · intro c hc
            cases hc with
            | head => rfl
            | tail _ hc => exact ihl c hc
          · cases hq : requests (fetchLoop remote f
                (r.map (fun n => n - events.length)) nextTok).1 with
            | nil => exact trivial
            | cons c2 rest =>
              rw [hq] at ihf ihc
              refine ⟨⟨events, ?_⟩, ihc⟩
              rw [hr, ihf]
    · simp only [ha, if_false]
      exact ⟨by simp [requests], trivial, trivial⟩

/-- C6: over any run of the fetch loop started (as `main` does) with no
continuation token: every page request passes a page size equal to
`min(remaining, 1000)` when a max-items bound remains and 1000 when
unbounded; the first request carries no continuation token; and each later
request carries exactly the token delivered by the remote's successful
response to the previous request. -/
theorem c6_page_size_and_token_chain (remote : Remote) (fuel : Nat) (r0 : Option Nat) :
    (∀ c ∈ requests (fetchLoop remote fuel r0 none).1,
        c.2.1 = match c.1 with
          | some n => min n 1000
          | none => 1000) ∧
    firstTokenIs none (requests (fetchLoop remote fuel r0 none).1) ∧
    tokensChain remote (requests (fetchLoop remote fuel r0 none).1) := by
  obtain ⟨hl, hf, hc⟩ := fetchLoop_requests_ok remote fuel r0 none
  refine ⟨?_, hf, hc⟩
  intro c hc2
  rw [hl c hc2]
  cases c1 : c.1 <;> simp [limitOf, c1]

/-- Witness for C6 at a concrete bounded run against the 12-record remote. -/
theorem c6_witness :
    (∀ c ∈ requests (fetchLoop remote12 20 (some 7) none).1,
        c.2.1 = match c.1 with
          | some n => min n 1000
          | none => 1000) ∧
    firstTokenIs none (requests (fetchLoop remote12 20 (some 7) none).1) ∧
    tokensChain remote12 (requests (fetchLoop remote12 20 (some 7) none).1) :=
  c6_page_size_and_token_chain remote12 20 (some 7)

theorem fetchLoop_head_request (remote : Remote) (f : Nat) (r : Option Nat)
    (t : Option String) (hact : optActive r = true) :
    ∃ rest, requests (fetchLoop remote (f + 1) r t).1 = (r, limitOf r, t) :: rest := by
  rw [fetchLoop]
  simp only [hact, if_true]
  cases hr : remote (limitOf r) t with
  | failure err => exact ⟨[], by simp [requests]⟩
  | success events nextTok =>
    dsimp only
    by_cases hn : nextTok.isNone
    · rw [if_pos hn]
      exact ⟨requests (recordBlock events), rfl⟩
    · rw [if_neg hn]
      refine ⟨requests (fetchLoop remote f (r.map (fun n => n - events.length)) nextTok).1, ?_⟩
      show requests (Effect.request r (limitOf r) t ::
          (recordBlock events ++
            (fetchLoop remote f (r.map (fun n => n - events.length)) nextTok).1)) = _
      simp only [requests, requests_append, requests_recordBlock, List.nil_append]

/-- C9: a page that returns fewer records than the requested page size but
still supplies a continuation token is not treated as end of stream: provided
the loop guard still holds after decrementing `remaining` by the page length,
the driver issues a second page request, carrying that token and the
decremented remaining count.  (The loop stops only when `remaining` reaches
zero — the guard fails — or when the response carries no token.) -/
theorem c9_short_page_with_token_continues (remote : Remote) (fuel : Nat)
    (r : Option Nat) (t : Option String) (evs : List String) (tk : String)
    (hact : optActive r = true)
    (hresp : remote (limitOf r) t = RemoteResult.success evs (some tk))
    (hshort : evs.length < limitOf r)
    (hact2 : optActive (r.map (fun n => n - evs.length)) = true)
    (hfuel : 2 ≤ fuel) :
    ∃ c2 rest, requests (fetchLoop remote fuel r t).1 =
      (r, limitOf r, t) :: c2 :: rest ∧
      c2.1 = r.map (fun n => n - evs.length) ∧ c2.2.2 = some tk := by
  obtain ⟨k, rfl⟩ : ∃ k, fuel = k + 2 := ⟨fuel - 2, by omega⟩
  rw [show k + 2 = (k + 1) + 1 from rfl, fetchLoop]
  simp only [hact, if_true]
  rw [hresp]
  dsimp only
  rw [if_neg (by simp)]
  obtain ⟨rest, hrest⟩ := fetchLoop_head_request remote k
    (r.map (fun n => n - evs.length)) (some tk) hact2
  refine ⟨(r.map (fun n => n - evs.length), limitOf (r.map (fun n => n - evs.length)),
    some tk), rest, ?_, rfl, rfl⟩
  show requests (Effect.request r (limitOf r) t ::
      (recordBlock evs ++
        (fetchLoop remote (k + 1) (r.map (fun n => n - evs.length)) (some tk)).1)) = _
  simp only [requests, requests_append, requests_recordBlock, List.nil_append]
  rw [hrest]

/-- Witness for C9: a remote that always serves a 2-record page (shorter than
the limit 7) with a token; the driver issues a second request. -/
theorem c9_witness :
    ∃ c2 rest, requests (fetchLoop remoteShort 2 (some 7) none).1 =
      (some 7, 7, none) :: c2 :: rest ∧
      c2.1 = (some 7 : Option Nat).map (fun n => n - (["a", "b"] : List String).length) ∧
      c2.2.2 = some "t" :=
  c9_short_page_with_token_continues remoteShort 2 (some 7) none ["a", "b"] "t"
    (by decide) (by decide) (by decide) (by decide) (by decide)

/-- `strLe a b`: the string `a` is an initial segment of `b`. -/
def strLe (a b : String) : Prop := ∃ u, a ++ u = b

/-- The newline-terminated concatenation of a list of serialized records:
the file contents produced by appending each record plus a newline. -/
def lineJoin : List String → String
  | [] => ""
  | s :: rest => s ++ "\n" ++ lineJoin rest

theorem strLe_nil (s : String) : strLe "" s := ⟨s, by simp⟩

theorem strLe_append_left (p : String) {a b : String} (h : strLe a b) :
    strLe (p ++ a) (p ++ b) := by
  obtain ⟨u, rfl⟩ := h
  exact ⟨u, by rw [String.append_assoc]⟩

theorem emits_append (a b : List Effect) : emits (a ++ b) = emits a ++ emits b := by
  induction a with
  | nil => rfl
  | cons x xs ih => cases x <;> simp [emits, ih]

theorem cacheContent_append (a b : List Effect) :
    cacheContent (a ++ b) = cacheContent a ++ cacheContent b := by
  induction a with
  | nil => simp [cacheContent]
  | cons x xs ih => cases x <;> simp [cacheContent, ih, String.append_assoc]

theorem lineJoin_append (a b : List String) :
    lineJoin (a ++ b) = lineJoin a ++ lineJoin b := by
  induction a with
  | nil => simp [lineJoin]
  | cons s rest ih => simp [lineJoin, ih, String.append_assoc]

/-- The two C7 invariants of a trace: the bytes appended to the temp cache
file are exactly the newline-terminated serializations of the emitted
records, in order; and at every cut point of the trace, every record emitted
so far has already been fully appended to the cache file (append
happens-before emit). -/
def GoodTrace (tr : List Effect) : Prop :=
  cacheContent tr = lineJoin (emits tr) ∧
  ∀ l1 l2, tr = l1 ++ l2 → strLe (lineJoin (emits l1)) (cacheContent l1)

theorem goodTrace_nil : GoodTrace [] := by
  refine ⟨rfl, ?_⟩
  intro l1 l2 h
  obtain ⟨h1, h2⟩ := List.append_eq_nil.mp h.symm
  subst h1
  exact strLe_nil _

theorem goodTrace_append {a b : List Effect} (ha : GoodTrace a) (hb : GoodTrace b) :
    GoodTrace (a ++ b) := by
  obtain ⟨ha1, ha2⟩ := ha
  obtain ⟨hb1, hb2⟩ := hb
  constructor
  · rw [cacheContent_append, emits_append, lineJoin_append, ha1, hb1]
  · intro l1 l2 h
    rcases List.append_eq_append_iff.mp h.symm with ⟨m, hm1, hm2⟩ | ⟨m, hm1, hm2⟩
    · exact ha2 l1 m hm1
    · subst hm1
      rw [emits_append, lineJoin_append, cacheContent_append, ha1]
      exact strLe_append_left _ (hb2 m l2 hm2)

theorem goodTrace_singleton_inert (x : Effect) (h1 : cacheContent [x] = "")
    (h2 : emits [x] = []) : GoodTrace [x] := by
  constructor
  · rw [h1, h2]
    rfl
  · intro l1 l2 h
    cases l1 with
    | nil => exact strLe_nil _
    | cons y l1 =>
      injection h with hy hrest
      obtain ⟨h11, h12⟩ := List.append_eq_nil.mp hrest.symm
      subst hy h11
      rw [h2]
      exact strLe_nil _

theorem goodTrace_cons_inert (x : Effect) (h1 : cacheContent [x] = "")
    (h2 : emits [x] = []) {tr : List Effect} (h : GoodTrace tr) : GoodTrace (x :: tr) :=
  goodTrace_append (goodTrace_singleton_inert x h1 h2) h

theorem goodTrace_block3 (e : String) :
    GoodTrace [Effect.writeCache e, Effect.writeCache "\n", Effect.emit e] := by
  constructor
  · simp [cacheContent, emits, lineJoin, String.append_assoc]
  · intro l1 l2 h
    cases l1 with
    | nil => exact strLe_nil _
    | cons x1 l1 =>
      injection h with hx1 h
      subst hx1
      cases l1 with
      | nil => exact strLe_nil _
      | cons x2 l1 =>
        injection h with hx2 h
        subst hx2
        cases l1 with
        | nil => exact strLe_nil _
        | cons x3 l1 =>
          injection h with hx3 h
          subst hx3
          obtain ⟨h1, h2⟩ := List.append_eq_nil.mp h.symm
          subst h1
          exact ⟨"", by simp [emits, lineJoin, cacheContent, String.append_assoc]⟩

theorem goodTrace_recordBlock (events : List String) : GoodTrace (recordBlock events) := by
  induction events with
  | nil => exact goodTrace_nil
  | cons e es ih =>
    have hsplit : recordBlock (e :: es) =
        [Effect.writeCache e, Effect.writeCache "\n", Effect.emit e] ++ recordBlock es := by
      simp [recordBlock]
    rw [hsplit]
    exact goodTrace_append (goodTrace_block3 e) ih

theorem goodTrace_fetchLoop (remote : Remote) :
    ∀ (fuel : Nat) (r : Option Nat) (t : Option String),
      GoodTrace (fetchLoop remote fuel r t).1 := by
  intro fuel
  induction fuel with
  | zero => intro r t; exact goodTrace_nil
  | succ f ih =>
    intro r t
    rw [fetchLoop]
    by_cases ha : optActive r
    · simp only [ha, if_true]
      cases hr : remote (limitOf r) t with
      | failure err =>
        dsimp only
        exact goodTrace_cons_inert (Effect.request r (limitOf r) t) rfl rfl
          (goodTrace_cons_inert (Effect.writeStderr err) rfl rfl goodTrace_nil)
      | success events nextTok =>
        dsimp only
        by_cases hn : nextTok.isNone
        · rw [if_pos hn]
          exact goodTrace_cons_inert (Effect.request r (limitOf r) t) rfl rfl
            (goodTrace_recordBlock events)
        · rw [if_neg hn]
          exact goodTrace_cons_inert (Effect.request r (limitOf r) t) rfl rfl
            (goodTrace_append (goodTrace_recordBlock events)
              (ih (r.map (fun n => n - events.length)) nextTok))
    · simp only [ha, if_false]
      exact goodTrace_nil

/-- C7: over any run of the fetch loop, (i) at every cut point of the effect
trace, the newline-terminated serializations of the records emitted so far
form an initial segment of the bytes already appended to the temp cache file
— each record is appended to the cache before it is emitted, in page order;
(ii) the temp file contents at any cut point are a prefix of the final file
contents; and (iii) the final file contents are exactly the
newline-terminated serializations of all emitted records, in order. -/
theorem c7_cache_append_before_emit (remote : Remote) (fuel : Nat) (r0 : Option Nat)
    (t0 : Option String) (l1 l2 : List Effect)
    (h : (fetchLoop remote fuel r0 t0).1 = l1 ++ l2) :
    strLe (lineJoin (emits l1)) (cacheContent l1) ∧
    strLe (cacheContent l1) (cacheContent (l1 ++ l2)) ∧
    cacheContent (l1 ++ l2) = lineJoin (emits (l1 ++ l2)) := by
  obtain ⟨hg1, hg2⟩ := goodTrace_fetchLoop remote fuel r0 t0
  refine ⟨hg2 l1 l2 h, ⟨cacheContent l2, (cacheContent_append l1 l2).symm⟩, ?_⟩
  rw [← h]
  exact hg1

/-- Witness for C7: a concrete cut after the first two effects of the
bounded run against the 12-record remote. -/
theorem c7_witness :
    strLe (lineJoin (emits ((fetchLoop remote12 20 (some 5) none).1.take 2)))
      (cacheContent ((fetchLoop remote12 20 (some 5) none).1.take 2)) ∧
    strLe (cacheContent ((fetchLoop remote12 20 (some 5) none).1.take 2))
      (cacheContent ((fetchLoop remote12 20 (some 5) none).1.take 2 ++
        (fetchLoop remote12 20 (some 5) none).1.drop 2)) ∧
    cacheContent ((fetchLoop remote12 20 (some 5) none).1.take 2 ++
        (fetchLoop remote12 20 (some 5) none).1.drop 2) =
      lineJoin (emits ((fetchLoop remote12 20 (some 5) none).1.take 2 ++
        (fetchLoop remote12 20 (some 5) none).1.drop 2)) :=
  c7_cache_append_before_emit remote12 20 (some 5) none
    ((fetchLoop remote12 20 (some 5) none).1.take 2)
    ((fetchLoop remote12 20 (some 5) none).1.drop 2)
    (List.take_append_drop 2 (fetchLoop remote12 20 (some 5) none).1).symm
